import Mathlib

/-!
Verification of `tree_diff.go` (package hercules): the `TreeDiff` pipeline
item that produces, per commit, the list of path-level changes against the
previously processed commit, filtered by configurable directory blacklists.

The embedding keeps the source's structure: a `TreeDiff` record with
`previousTree` and `SkipDirs`, the `Configure` / `Initialize` / `Consume`
entry points, the first-call full-tree file enumeration with a deferred
`Close`, and the in-order blacklist filter. The backing store's
`object.DiffTree` is a black-box parameter. Machine-level details are
abstracted as follows: file modes and content hashes are naturals, paths are
strings, errors are opaque string tags, and a dynamic (interface) value in
the configuration facts map is a `FactValue`.
-/

namespace HerculesTreeDiff

/-- Errors surfaced by the backing store, carried opaquely. -/
abbrev Err := String

/-- One file produced by the tree's file enumeration: `file.Name`,
`file.Mode`, `file.Hash` as read on lines 113-115 of the source. -/
structure File where
  name : String
  mode : Nat
  hash : Nat
deriving DecidableEq

/-- A tree snapshot as the Differ observes it: `tree.Files()` yields `files`
in order and then terminates, either normally (`enumErr = none`, the EOF
case) or abnormally with an error. -/
structure Tree where
  files : List File
  enumErr : Option Err
deriving DecidableEq

/-- `object.TreeEntry`: Name, Mode, Hash. -/
structure TreeEntry where
  name : String
  mode : Nat
  hash : Nat
deriving DecidableEq

/-- `object.ChangeEntry`: Name, Tree, TreeEntry. The Go zero value marks an
absent side of a change: empty name, no tree, zero entry. -/
structure ChangeEntry where
  name : String
  tree : Option Tree
  treeEntry : TreeEntry
deriving DecidableEq

/-- The zero value of `object.ChangeEntry`, the absent side of an insertion
or a deletion. -/
def ChangeEntry.zero : ChangeEntry :=
  { name := "", tree := none, treeEntry := { name := "", mode := 0, hash := 0 } }

/-- `object.Change`: a From entry and a To entry (Lean reserves `from`, so
the fields are `fromE` and `toE`). -/
structure Change where
  fromE : ChangeEntry
  toE : ChangeEntry
deriving DecidableEq

/-- A commit as the Differ uses it: `commit.Tree()` either resolves to a tree
snapshot or fails. -/
structure Commit where
  tree : Except Err Tree

/-- The pipeline item state (lines 15-18): `previousTree *object.Tree` (an
optional borrowed snapshot) and `SkipDirs []string`. -/
structure TreeDiff where
  previousTree : Option Tree
  SkipDirs : List String
deriving DecidableEq

/-- Name of the configuration option enabling the blacklist (flag
skip-blacklist), line 25 of the source. -/
def ConfigTreeDiffSkipBlacklist : String := "TreeDiff.SkipVendor"

/-- Name of the configuration option holding the blacklist (flag
blacklisted-dirs), line 28 of the source. -/
def ConfigTreeDiffBlacklistedDirs : String := "TreeDiff.BlacklistedDirs"

/-- Default blacklisted directories, line 31 of the source. -/
def defaultBlacklistedDirs : List String := ["vendor/", "vendors/", "node_modules/"]

/-- A value of Go dynamic type stored in the facts map: a boolean, a string
list, or some value of any other dynamic type, on which the unchecked type
assertions in Configure fail at run time. -/
inductive FactValue
  | bool (b : Bool)
  | strings (l : List String)
  | other
deriving DecidableEq

/-- Configure (lines 71-75). Evaluates the assertion `val.(bool)` only when
the key exists (Go's short-circuit conjunction), and the assertion
`facts[ConfigTreeDiffBlacklistedDirs].([]string)` only when the first
condition held. `none` models a failed unchecked dynamic type assertion,
which is a run-time fault in Go: asserting bool on a non-boolean, or
asserting a string list when the key is absent (a nil interface) or holds a
value of another type. -/
def TreeDiff.Configure (td : TreeDiff) (facts : String → Option FactValue) :
    Option TreeDiff :=
  match facts ConfigTreeDiffSkipBlacklist with
  | none => some td
  | some (.bool b) =>
    if b then
      match facts ConfigTreeDiffBlacklistedDirs with
      | some (.strings l) => some { td with SkipDirs := l }
      | _ => none
    else
      some td
  | some _ => none

/-- The reset entry point of lines 79-81 (named after `Init`-ialize in the
source): clears `previousTree`; the repository argument is unused there and
omitted here. -/
def TreeDiff.Init (td : TreeDiff) : TreeDiff := { td with previousTree := none }

/-- Models `strings.HasPrefix s dir`: whether `dir` is a prefix of `s`,
stated on the character lists underlying the strings. -/
def hasPre (s dir : String) : Bool := dir.data.isPrefixOf s.data

/-- The state of the `tree.Files()` iterator: the files not yet produced,
the terminal event (`none` is natural EOF, `some e` abnormal termination),
and whether Close has been called. -/
structure FileIter where
  files : List File
  term : Option Err
  closed : Bool
deriving DecidableEq

/-- `tree.Files()` (line 103): a fresh, open iterator over the tree's
files. -/
def Tree.Files (t : Tree) : FileIter :=
  { files := t.files, term := t.enumErr, closed := false }

/-- `fileIter.Close()` (deferred on line 104): releases the backing-store
resource behind the iterator. -/
def FileIter.Close (it : FileIter) : FileIter := { it with closed := true }

/-- The insertion-only Change built for one file on the first call
(lines 113-115): To holds the file's name, the tree and the tree entry;
From stays the zero value. -/
def insertionChange (tree : Tree) (file : File) : Change :=
  { fromE := ChangeEntry.zero,
    toE := { name := file.name, tree := some tree,
             treeEntry := { name := file.name, mode := file.mode, hash := file.hash } } }

/-- The for-loop of the first-call enumeration (lines 105-116): take the next
file and append an insertion Change; on EOF break with the accumulated
changes; on any other error return that error. The result is paired with the
iterator as the loop leaves it. -/
def enumLoop (tree : Tree) :
    List File → Option Err → Bool → List Change → Except Err (List Change) × FileIter
  | [], none, c, diff => (.ok diff, { files := [], term := none, closed := c })
  | [], some e, c, _ => (.error e, { files := [], term := some e, closed := c })
  | f :: rest, t, c, diff =>
      enumLoop tree rest t c (diff ++ [insertionChange tree f])

/-- The anonymous function of lines 102-118: open the iterator, run the
enumeration loop over its state, and - Close being deferred - close the
iterator on the way out of every exit path. -/
def firstCallEnum (tree : Tree) : Except Err (List Change) × FileIter :=
  let it := tree.Files
  let p := enumLoop tree it.files it.term it.closed []
  (p.1, p.2.Close)

/-- Whether the blacklist skips one change (lines 130-134): some configured
dir is a prefix of the To name or of the From name; an absent entry
contributes its zero-value empty name, exactly as in the source. -/
def skippedBy (skipDirs : List String) (c : Change) : Bool :=
  skipDirs.any fun dir => hasPre c.toE.name dir || hasPre c.fromE.name dir

/-- The filter stage (lines 125-139): when SkipDirs is non-empty, keep, in
order, exactly the changes not skipped by the blacklist; otherwise the list
is left untouched. -/
def applyFilter (skipDirs : List String) (diff : List Change) : List Change :=
  if skipDirs.length > 0 then
    diff.filter fun c => ! skippedBy skipDirs c
  else
    diff

/-- Lines 123-140, the tail shared by both branches of Consume: record the
full, unfiltered snapshot as the previous tree, then filter, then return. -/
def TreeDiff.consumeTail (td : TreeDiff) (tree : Tree) (diff : List Change) :
    Except Err (List Change) × TreeDiff :=
  let td1 : TreeDiff := { td with previousTree := some tree }
  (.ok (applyFilter td1.SkipDirs diff), td1)

/-- Consume (lines 88-141). `diffTree` is the backing store's
`object.DiffTree`, a black-box structural comparison of two snapshots;
`commit` is the value `deps` carries under the "commit" key. The Go method
mutates the receiver and returns either the changes or an error beside a nil
map; here it returns the result paired with the state after the call. -/
def TreeDiff.Consume (diffTree : Tree → Tree → Except Err (List Change))
    (td : TreeDiff) (commit : Commit) : Except Err (List Change) × TreeDiff :=
  match commit.tree with
  | .error e => (.error e, td)
  | .ok tree =>
    match td.previousTree with
    | some prev =>
      match diffTree prev tree with
      | .error e => (.error e, td)
      | .ok diff => td.consumeTail tree diff
    | none =>
      match (firstCallEnum tree).1 with
      | .error e => (.error e, td)
      | .ok diff => td.consumeTail tree diff

instance {ε α : Type} [DecidableEq ε] [DecidableEq α] : DecidableEq (Except ε α) := fun
  | .ok a, .ok b => decidable_of_iff (a = b) (by simp)
  | .ok _, .error _ => .isFalse (fun h => Except.noConfusion h)
  | .error _, .ok _ => .isFalse (fun h => Except.noConfusion h)
  | .error e, .error f => decidable_of_iff (e = f) (by simp)

/-- The empty dir is a prefix of every path. -/
theorem hasPre_empty_dir (s : String) : hasPre s "" = true := by
  show (("".data).isPrefixOf s.data) = true
  simp

/-- A non-empty dir is never a prefix of the empty (absent-entry) path. -/
theorem hasPre_empty_str (dir : String) (h : dir ≠ "") : hasPre "" dir = false := by
  show (dir.data.isPrefixOf "".data) = false
  cases hd : dir.data with
  | nil =>
      exact absurd (by cases dir; cases "" ; simp_all) h
  | cons a as => simp [List.isPrefixOf]

/-- Running the enumeration loop over an iterator that terminates normally
collects one insertion change per remaining file, in order. -/
theorem enumLoop_none (tree : Tree) (fs : List File) (c : Bool) (acc : List Change) :
    enumLoop tree fs none c acc
      = (.ok (acc ++ fs.map (insertionChange tree)),
         { files := [], term := none, closed := c }) := by
  induction fs generalizing acc with
  | nil => simp [enumLoop]
  | cons f rest ih => simp [enumLoop, ih]

/-- Running the enumeration loop over an iterator that terminates abnormally
surfaces that error. -/
theorem enumLoop_some (tree : Tree) (fs : List File) (e : Err) (c : Bool)
    (acc : List Change) :
    enumLoop tree fs (some e) c acc
      = (.error e, { files := [], term := some e, closed := c }) := by
  induction fs generalizing acc with
  | nil => simp [enumLoop]
  | cons f rest ih => simp [enumLoop, ih]

/-- A normally terminating first-call enumeration lists the tree's files as
insertion changes. -/
theorem firstCallEnum_ok (t : Tree) (h : t.enumErr = none) :
    (firstCallEnum t).1 = .ok (t.files.map (insertionChange t)) := by
  simp [firstCallEnum, Tree.Files, h, enumLoop_none]

/-- An abnormally terminating first-call enumeration surfaces its error. -/
theorem firstCallEnum_err (t : Tree) (e : Err) (h : t.enumErr = some e) :
    (firstCallEnum t).1 = .error e := by
  simp [firstCallEnum, Tree.Files, h, enumLoop_some]

/-- The filter leaves the list untouched when no dir is configured. -/
theorem applyFilter_nil (cs : List Change) : applyFilter [] cs = cs := rfl

/-- With at least one configured dir, the filter is a plain in-order
`List.filter`. -/
theorem applyFilter_ne_nil (dirs : List String) (h : dirs ≠ []) (cs : List Change) :
    applyFilter dirs cs = cs.filter fun c => ! skippedBy dirs c := by
  unfold applyFilter
  rw [if_pos (List.length_pos.mpr h)]

/-- C7: with an empty blacklist prefix set the filter stage is the identity,
returning every Changes sequence unchanged. -/
theorem c7_filter_identity_on_empty (cs : List Change) : applyFilter [] cs = cs :=
  applyFilter_nil cs

/-- C8: the filter stage is idempotent - applying it twice with the same
prefix set equals applying it once, for every Changes sequence and every
prefix set. -/
theorem c8_filter_idempotent (dirs : List String) (cs : List Change) :
    applyFilter dirs (applyFilter dirs cs) = applyFilter dirs cs := by
  by_cases h : dirs = []
  · subst h; rfl
  · simp [applyFilter_ne_nil dirs h, List.filter_filter]

/-- C9: the first-call file enumeration's iterator is closed on every exit
path - normal EOF completion as well as abnormal termination - for every
tree, so the backing-store resource is always released. -/
theorem c9_enum_closed_on_every_path (t : Tree) :
    ((firstCallEnum t).2).closed = true := rfl

/-- Consume surfaces a tree-resolution failure untouched. -/
theorem consume_err_tree (dt : Tree → Tree → Except Err (List Change))
    (td : TreeDiff) (c : Commit) (e : Err) (hc : c.tree = .error e) :
    TreeDiff.Consume dt td c = (.error e, td) := by
  unfold TreeDiff.Consume
  rw [hc]

/-- Consume, diff branch, success: with a stored previous tree and a
successful black-box diff, the result is the filtered diff and the state
stores the new snapshot. -/
theorem consume_diff_branch (dt : Tree → Tree → Except Err (List Change))
    (td : TreeDiff) (c : Commit) (t prev : Tree) (d : List Change)
    (ht : c.tree = .ok t) (hp : td.previousTree = some prev)
    (hd : dt prev t = .ok d) :
    TreeDiff.Consume dt td c
      = (.ok (applyFilter td.SkipDirs d), { td with previousTree := some t }) := by
  simp only [TreeDiff.Consume, ht, hp, hd, TreeDiff.consumeTail]

/-- Consume, diff branch, failure: a failing black-box diff is surfaced with
the state untouched. -/
theorem consume_diff_branch_err (dt : Tree → Tree → Except Err (List Change))
    (td : TreeDiff) (c : Commit) (t prev : Tree) (e : Err)
    (ht : c.tree = .ok t) (hp : td.previousTree = some prev)
    (hd : dt prev t = .error e) :
    TreeDiff.Consume dt td c = (.error e, td) := by
  simp only [TreeDiff.Consume, ht, hp, hd]

/-- Consume, first-call branch, success: with no stored previous tree and a
normally terminating enumeration, the result is the filtered insertion
listing and the state stores the snapshot. -/
theorem consume_first_branch (dt : Tree → Tree → Except Err (List Change))
    (td : TreeDiff) (c : Commit) (t : Tree)
    (ht : c.tree = .ok t) (hp : td.previousTree = none) (he : t.enumErr = none) :
    TreeDiff.Consume dt td c
      = (.ok (applyFilter td.SkipDirs (t.files.map (insertionChange t))),
         { td with previousTree := some t }) := by
  simp only [TreeDiff.Consume, ht, hp, firstCallEnum_ok t he, TreeDiff.consumeTail]

/-- Consume, first-call branch, failure: an abnormally terminating
enumeration is surfaced with the state untouched. -/
theorem consume_first_branch_err (dt : Tree → Tree → Except Err (List Change))
    (td : TreeDiff) (c : Commit) (t : Tree) (e : Err)
    (ht : c.tree = .ok t) (hp : td.previousTree = none)
    (he : t.enumErr = some e) :
    TreeDiff.Consume dt td c = (.error e, td) := by
  simp only [TreeDiff.Consume, ht, hp, firstCallEnum_err t e he]

/-- A successful Consume leaves the state equal to the old one with
previousTree replaced by the resolved snapshot. -/
theorem consume_ok_state (dt : Tree → Tree → Except Err (List Change))
    (td : TreeDiff) (c : Commit) (t : Tree) (r : List Change) (td' : TreeDiff)
    (ht : c.tree = .ok t)
    (h : TreeDiff.Consume dt td c = (.ok r, td')) :
    td' = { td with previousTree := some t } := by
  cases hp : td.previousTree with
  | some prev =>
      cases hd : dt prev t with
      | error e =>
          rw [consume_diff_branch_err dt td c t prev e ht hp hd] at h
          exact absurd (congrArg Prod.fst h) (by simp)
      | ok d =>
          rw [consume_diff_branch dt td c t prev d ht hp hd] at h
          exact (congrArg Prod.snd h).symm
  | none =>
      cases he : t.enumErr with
      | some e =>
          rw [consume_first_branch_err dt td c t e ht hp he] at h
          exact absurd (congrArg Prod.fst h) (by simp)
      | none =>
          rw [consume_first_branch dt td c t ht hp he] at h
          exact (congrArg Prod.snd h).symm

/-- C4: on any failure during Consume - tree resolution failure, abnormal
enumeration termination, or diff computation failure - the call returns the
error and nothing else: the full result is the error beside the state
exactly as it was before the call, so previousTree is overwritten only on
success and no changes accompany an error. -/
theorem c4_error_preserves_state (dt : Tree → Tree → Except Err (List Change))
    (td : TreeDiff) (c : Commit) (e : Err)
    (h : (TreeDiff.Consume dt td c).1 = .error e) :
    TreeDiff.Consume dt td c = (.error e, td) := by
  cases hc : c.tree with
  | error e2 =>
      have h2 := consume_err_tree dt td c e2 hc
      rw [h2] at h
      simp at h
      subst h
      exact h2
  | ok t =>
      cases hp : td.previousTree with
      | some prev =>
          cases hd : dt prev t with
          | error e2 =>
              have h2 := consume_diff_branch_err dt td c t prev e2 hc hp hd
              rw [h2] at h
              simp at h
              subst h
              exact h2
          | ok d =>
              rw [consume_diff_branch dt td c t prev d hc hp hd] at h
              simp at h
      | none =>
          cases he : t.enumErr with
          | some e2 =>
              have h2 := consume_first_branch_err dt td c t e2 hc hp he
              rw [h2] at h
              simp at h
              subst h
              exact h2
          | none =>
              rw [consume_first_branch dt td c t hc hp he] at h
              simp at h

def w4dt : Tree → Tree → Except Err (List Change) := fun _ _ => .ok []

def w4td : TreeDiff := { previousTree := none, SkipDirs := [] }

def w4commit : Commit := { tree := .error "resolve" }

/-- Witness for C4: a concrete failing tree resolution returns the error and
keeps the state. -/
theorem c4_error_preserves_state_witness :
    TreeDiff.Consume w4dt w4td w4commit = (.error "resolve", w4td) :=
  c4_error_preserves_state w4dt w4td w4commit "resolve" rfl

/-- C6: a successful Consume stores the full, unfiltered resolved snapshot as
the diff baseline for the next call: the stored tree is the commit's tree
itself, and the stored baseline is the same under every blacklist
configuration, so filtering never affects it. -/
theorem c6_baseline_unfiltered (dt : Tree → Tree → Except Err (List Change))
    (prev : Option Tree) (dirs dirs2 : List String) (c : Commit) (t : Tree)
    (r : List Change) (td' : TreeDiff)
    (ht : c.tree = .ok t)
    (h : TreeDiff.Consume dt { previousTree := prev, SkipDirs := dirs } c
          = (.ok r, td')) :
    td'.previousTree = some t
    ∧ ((TreeDiff.Consume dt { previousTree := prev, SkipDirs := dirs2 } c).2).previousTree
        = some t := by
  refine ⟨?_, ?_⟩
  · rw [consume_ok_state dt _ c t r td' ht h]
  · cases prev with
    | some p =>
        cases hd : dt p t with
        | error e =>
            rw [consume_diff_branch_err dt _ c t p e ht rfl hd] at h
            exact absurd (congrArg Prod.fst h) (by simp)
        | ok d =>
            rw [consume_diff_branch dt _ c t p d ht rfl hd]
    | none =>
        cases he : t.enumErr with
        | some e =>
            rw [consume_first_branch_err dt _ c t e ht rfl he] at h
            exact absurd (congrArg Prod.fst h) (by simp)
        | none =>
            rw [consume_first_branch dt _ c t ht rfl he]

def w6dt : Tree → Tree → Except Err (List Change) := fun _ _ => .ok []

def w6tree : Tree := { files := [], enumErr := none }

def w6c : Commit := { tree := .ok w6tree }

/-- Witness for C6 at a concrete successful first call, against a second
configuration with a blacklist. -/
theorem c6_baseline_unfiltered_witness :
    ({ previousTree := some w6tree, SkipDirs := [] } : TreeDiff).previousTree
      = some w6tree
    ∧ ((TreeDiff.Consume w6dt
          { previousTree := none, SkipDirs := ["vendor/"] } w6c).2).previousTree
        = some w6tree :=
  c6_baseline_unfiltered w6dt none [] ["vendor/"] w6c w6tree []
    { previousTree := some w6tree, SkipDirs := [] } rfl rfl

/-- C2 (amended): after two consecutive successful Consume calls on commits
resolving to snapshots T1 then T2, the second call's changes are the
blacklist filter applied to the black-box structural diff of the two
snapshots - the stateless pairwise reference - and with no blacklist
configured they equal that diff exactly. -/
theorem c2_second_call_stateless_diff (dt : Tree → Tree → Except Err (List Change))
    (td : TreeDiff) (c1 c2 : Commit) (t1 t2 : Tree) (r1 r2 : List Change)
    (td1 td2 : TreeDiff) (d : List Change)
    (h1 : c1.tree = .ok t1) (h2 : c2.tree = .ok t2)
    (hc1 : TreeDiff.Consume dt td c1 = (.ok r1, td1))
    (hc2 : TreeDiff.Consume dt td1 c2 = (.ok r2, td2))
    (hd : dt t1 t2 = .ok d) :
    r2 = applyFilter td.SkipDirs d ∧ (td.SkipDirs = [] → r2 = d) := by
  have hs1 := consume_ok_state dt td c1 t1 r1 td1 h1 hc1
  have hb := consume_diff_branch dt td1 c2 t2 t1 d h2 (by rw [hs1]) hd
  rw [hb] at hc2
  injection hc2 with ha _
  injection ha with ha
  have hsd : td1.SkipDirs = td.SkipDirs := by rw [hs1]
  constructor
  · rw [← ha, hsd]
  · intro hnil
    rw [← ha, hsd, hnil, applyFilter_nil]

def w2tree1 : Tree := { files := [], enumErr := none }

def w2tree2 : Tree :=
  { files := [{ name := "a.txt", mode := 33188, hash := 2 }], enumErr := none }

def w2changeV : Change :=
  { fromE := ChangeEntry.zero,
    toE := { name := "vendor/lib.go", tree := some w2tree2,
             treeEntry := { name := "vendor/lib.go", mode := 33188, hash := 7 } } }

def w2dt : Tree → Tree → Except Err (List Change) := fun _ _ => .ok [w2changeV]

def w2td : TreeDiff := { previousTree := none, SkipDirs := ["vendor/"] }

def w2c1 : Commit := { tree := .ok w2tree1 }

def w2c2 : Commit := { tree := .ok w2tree2 }

/-- C2 as frozen fails on the code: with blacklist ["vendor/"] configured,
two consecutive successful calls on T1 then T2 where the black-box diff of
T1 and T2 is one change under vendor/ return no changes at all on the second
call, not that diff. -/
theorem c2_counterexample :
    (TreeDiff.Consume w2dt w2td w2c1).1 = .ok []
    ∧ (TreeDiff.Consume w2dt (TreeDiff.Consume w2dt w2td w2c1).2 w2c2).1 = .ok []
    ∧ w2dt w2tree1 w2tree2 = .ok [w2changeV]
    ∧ ([] : List Change) ≠ [w2changeV] :=
  ⟨rfl, rfl, rfl, fun h => List.noConfusion h⟩

/-- Witness for the amended C2 at the concrete two-call run used in the
counterexample. -/
theorem c2_second_call_stateless_diff_witness :
    ([] : List Change) = applyFilter w2td.SkipDirs [w2changeV]
    ∧ (w2td.SkipDirs = [] → ([] : List Change) = [w2changeV]) :=
  c2_second_call_stateless_diff w2dt w2td w2c1 w2c2 w2tree1 w2tree2 [] []
    { previousTree := some w2tree1, SkipDirs := ["vendor/"] }
    { previousTree := some w2tree2, SkipDirs := ["vendor/"] }
    [w2changeV] rfl rfl rfl rfl rfl

/-- C1 (amended): for the first commit processed after initialization
(previousTree absent), provided the active blacklist prefix set is empty,
Consume returns one insertion-only Change per file of the commit's tree, in
enumeration order: each change carries the To entry built from its file and
a zero From entry, and the emitted To paths are exactly the tree's file
paths, with no omissions and no duplicates. -/
theorem c1_first_call_insertions (dt : Tree → Tree → Except Err (List Change))
    (td : TreeDiff) (c : Commit) (t : Tree)
    (hprev : td.previousTree = none) (hskip : td.SkipDirs = [])
    (ht : c.tree = .ok t) (he : t.enumErr = none) :
    TreeDiff.Consume dt td c
      = (.ok (t.files.map (insertionChange t)), { td with previousTree := some t })
    ∧ (t.files.map (insertionChange t)).map (fun ch => ch.toE.name)
        = t.files.map File.name
    ∧ ∀ ch ∈ t.files.map (insertionChange t), ch.fromE = ChangeEntry.zero := by
  refine ⟨?_, ?_, ?_⟩
  · rw [consume_first_branch dt td c t ht hprev he, hskip, applyFilter_nil]
  · simp [List.map_map, Function.comp, insertionChange]
  · intro ch hch
    simp only [List.mem_map] at hch
    obtain ⟨f, _, rfl⟩ := hch
    rfl

def x1tree : Tree :=
  { files := [{ name := "vendor/lib.go", mode := 33188, hash := 5 }],
    enumErr := none }

def x1commit : Commit := { tree := .ok x1tree }

def x1dt : Tree → Tree → Except Err (List Change) := fun _ _ => .ok []

def x1td : TreeDiff := TreeDiff.Init { previousTree := none, SkipDirs := ["vendor/"] }

/-- C1 as frozen fails on the code: with blacklist ["vendor/"] configured,
the first call after initialization on a tree whose only file is
vendor/lib.go returns no changes, so no insertion Change is emitted for that
file and the emitted path set misses the tree's path. -/
theorem c1_counterexample :
    x1td.previousTree = none
    ∧ x1tree.files.map File.name = ["vendor/lib.go"]
    ∧ (TreeDiff.Consume x1dt x1td x1commit).1 = .ok [] :=
  ⟨rfl, rfl, rfl⟩

def w1tree : Tree :=
  { files := [{ name := "a.txt", mode := 33188, hash := 1 },
              { name := "b/c.txt", mode := 33188, hash := 2 }],
    enumErr := none }

def w1commit : Commit := { tree := .ok w1tree }

def w1dt : Tree → Tree → Except Err (List Change) := fun _ _ => .ok []

def w1td : TreeDiff := { previousTree := none, SkipDirs := [] }

/-- Witness for the amended C1 on a tree with files a.txt and b/c.txt and no
blacklist configured. -/
theorem c1_first_call_insertions_witness :
    TreeDiff.Consume w1dt w1td w1commit
      = (.ok (w1tree.files.map (insertionChange w1tree)),
         { w1td with previousTree := some w1tree })
    ∧ (w1tree.files.map (insertionChange w1tree)).map (fun ch => ch.toE.name)
        = w1tree.files.map File.name
    ∧ ∀ ch ∈ w1tree.files.map (insertionChange w1tree), ch.fromE = ChangeEntry.zero :=
  c1_first_call_insertions w1dt w1td w1commit w1tree rfl rfl rfl rfl

/-- Modelled from the spec (data model): an entry of a change is present when
it is not the Go zero value, recognisable by its non-empty path. -/
def entryPresent (e : ChangeEntry) : Bool := decide (e.name ≠ "")

/-- Modelled from the spec (Filter contract): keep a change exactly when
neither the old-entry path nor the new-entry path, for the entries actually
present, begins with any blacklisted dir. -/
def specFilterKeep (dirs : List String) (c : Change) : Bool :=
  ! dirs.any fun dir =>
      (entryPresent c.fromE && hasPre c.fromE.name dir)
      || (entryPresent c.toE && hasPre c.toE.name dir)

/-- Under the data-model invariant that a change has at least one present
entry, the source's skip test agrees, dir by dir, with the spec's
present-entries formulation. -/
theorem skip_pointwise (c : Change) (hc : c.fromE.name ≠ "" ∨ c.toE.name ≠ "")
    (dir : String) :
    (hasPre c.toE.name dir || hasPre c.fromE.name dir)
      = ((entryPresent c.fromE && hasPre c.fromE.name dir)
          || (entryPresent c.toE && hasPre c.toE.name dir)) := by
  by_cases hf : c.fromE.name = ""
  · have ht : c.toE.name ≠ "" := by
      rcases hc with h | h
      · exact absurd hf h
      · exact h
    by_cases hd : dir = ""
    · subst hd
      simp [entryPresent, hf, ht, hasPre_empty_dir]
    · simp [entryPresent, hf, ht, hasPre_empty_str dir hd]
  · by_cases ht : c.toE.name = ""
    · by_cases hd : dir = ""
      · subst hd
        simp [entryPresent, hf, ht, hasPre_empty_dir]
      · simp [entryPresent, hf, ht, hasPre_empty_str dir hd]
    · simp [entryPresent, hf, ht, Bool.or_comm]

/-- Under the presence invariant the source's skip test equals the spec's. -/
theorem skippedBy_eq_spec (dirs : List String) (c : Change)
    (hc : c.fromE.name ≠ "" ∨ c.toE.name ≠ "") :
    skippedBy dirs c
      = dirs.any fun dir =>
          (entryPresent c.fromE && hasPre c.fromE.name dir)
          || (entryPresent c.toE && hasPre c.toE.name dir) := by
  unfold skippedBy
  congr 1
  funext dir
  exact skip_pointwise c hc dir

/-- C3: with a non-empty blacklist prefix set and inputs satisfying the data
model's invariant that every change has at least one present entry, the
filter returns exactly the in-order subsequence of changes of which no
present entry's path begins with any blacklisted dir: it equals the spec's
filter and is a sublist of the input, so retained entries keep their
relative order and nothing is duplicated. -/
theorem c3_filter_blacklist (dirs : List String) (cs : List Change)
    (hne : dirs ≠ [])
    (hpres : ∀ c ∈ cs, c.fromE.name ≠ "" ∨ c.toE.name ≠ "") :
    applyFilter dirs cs = cs.filter (specFilterKeep dirs)
    ∧ (applyFilter dirs cs).Sublist cs := by
  have he : applyFilter dirs cs = cs.filter (specFilterKeep dirs) := by
    rw [applyFilter_ne_nil dirs hne]
    exact List.filter_congr fun c hcmem =>
      congrArg (fun b => !b) (skippedBy_eq_spec dirs c (hpres c hcmem))
  refine ⟨he, ?_⟩
  rw [he]
  exact List.filter_sublist cs

def w3change1 : Change :=
  { fromE := ChangeEntry.zero,
    toE := { name := "vendor/lib.go", tree := none,
             treeEntry := { name := "vendor/lib.go", mode := 33188, hash := 1 } } }

def w3change2 : Change :=
  { fromE := ChangeEntry.zero,
    toE := { name := "main.go", tree := none,
             treeEntry := { name := "main.go", mode := 33188, hash := 2 } } }

def w3change3 : Change :=
  { fromE := { name := "vendor/old.go", tree := none,
               treeEntry := { name := "vendor/old.go", mode := 33188, hash := 3 } },
    toE := ChangeEntry.zero }

def w3cs : List Change := [w3change1, w3change2, w3change3]

/-- Witness for C3 on the spec's scenario: blacklist ["vendor/"] against an
insertion under vendor/, an insertion of main.go and a deletion under
vendor/. -/
theorem c3_filter_blacklist_witness :
    applyFilter ["vendor/"] w3cs = w3cs.filter (specFilterKeep ["vendor/"])
    ∧ (applyFilter ["vendor/"] w3cs).Sublist w3cs :=
  c3_filter_blacklist ["vendor/"] w3cs (by decide) (by decide)

/-- C5: on a fresh item (no dirs configured yet), Configure sets the active
prefix set to the supplied blacklisted-dirs exactly when skip-blacklist is
true; when that option is absent or false - whatever else the facts hold,
blacklisted-dirs included - the prefix set stays empty and the filter stage
is then the identity. -/
theorem c5_configure (td : TreeDiff) (facts : String → Option FactValue)
    (l : List String) (h0 : td.SkipDirs = []) :
    (facts ConfigTreeDiffSkipBlacklist = some (.bool true) →
       facts ConfigTreeDiffBlacklistedDirs = some (.strings l) →
       td.Configure facts = some { td with SkipDirs := l })
    ∧ ((facts ConfigTreeDiffSkipBlacklist = none
          ∨ facts ConfigTreeDiffSkipBlacklist = some (.bool false)) →
       td.Configure facts = some td ∧ ∀ cs, applyFilter td.SkipDirs cs = cs) := by
  constructor
  · intro hs hd
    simp [TreeDiff.Configure, hs, hd]
  · intro hs
    have hid : ∀ cs, applyFilter td.SkipDirs cs = cs := by
      intro cs
      rw [h0]
      exact applyFilter_nil cs
    rcases hs with hs | hs
    · exact ⟨by simp [TreeDiff.Configure, hs], hid⟩
    · exact ⟨by simp [TreeDiff.Configure, hs], hid⟩

def w5facts : String → Option FactValue := fun k =>
  if k = ConfigTreeDiffSkipBlacklist then some (.bool true)
  else if k = ConfigTreeDiffBlacklistedDirs then some (.strings ["vendor/"])
  else none

def w5td : TreeDiff := { previousTree := none, SkipDirs := [] }

/-- Witness for C5: concrete facts enabling skip-blacklist with dirs
["vendor/"] make Configure store that list. -/
theorem c5_configure_witness :
    w5td.Configure w5facts = some { w5td with SkipDirs := ["vendor/"] } :=
  (c5_configure w5td w5facts ["vendor/"] rfl).1 (by decide) (by decide)

def x10td : TreeDiff := { previousTree := none, SkipDirs := [] }

def x10factsNonBool : String → Option FactValue := fun k =>
  if k = ConfigTreeDiffSkipBlacklist then some .other else none

def x10factsMissing : String → Option FactValue := fun k =>
  if k = ConfigTreeDiffSkipBlacklist then some (.bool true) else none

def x10factsBadDirs : String → Option FactValue := fun k =>
  if k = ConfigTreeDiffSkipBlacklist then some (.bool true)
  else if k = ConfigTreeDiffBlacklistedDirs then some .other
  else none

/-- C10: there are inputs on which Configure's unchecked dynamic type
assertions fail at run time, modelled as `none`: skip-blacklist bound to a
non-boolean; skip-blacklist true with blacklisted-dirs absent; and
skip-blacklist true with blacklisted-dirs bound to a non-string-list. -/
theorem c10_configure_assertion_failures :
    x10td.Configure x10factsNonBool = none
    ∧ x10td.Configure x10factsMissing = none
    ∧ x10td.Configure x10factsBadDirs = none :=
  ⟨rfl, rfl, rfl⟩

end HerculesTreeDiff
